import Mathlib

/-!
Shallow embedding of `kashgari/embeddings/word_embedding.py`
(`WordEmbedding`: a pre-trained word2vec embedding adapter).

Modelling conventions:
* Python `dict` (insertion-ordered, assignment to an existing key updates the
  value in place) is modelled by `PyDict`, an association list with distinct
  keys kept in insertion order.
* numpy matrices are `List (List ℚ)`; `np.zeros`, row assignment `m[i] = v`
  and slice assignment `m[4:] = vs` are modelled with numpy's
  broadcast-assignment semantics: along each dimension the source extent must
  equal the destination extent or be 1 (then it is repeated); any other
  mismatch raises, modelled by `Option`.
* `gensim.models.KeyedVectors` (an external library) is modelled by its data:
  the word list `index2word`, the `vector_size`, and the `vectors` matrix.
  `load_word2vec_format` may raise, so the load result is passed in as an
  `Except`.
* `np.random.rand(vector_size)` is a random draw; the drawn vector is passed
  in as the parameter `randvec`.
* Methods mutate `self`; a method that can raise returns the pair of the
  state at return/raise time and an optional exception message.
-/

set_option autoImplicit false

abbrev Token := String

abbrev Vec := List ℚ

abbrev Mat := List (List ℚ)

/-- An insertion-ordered key-value map with distinct keys: the model of a
Python `dict`. -/
structure PyDict (α β : Type) where
  entries : List (α × β)
deriving DecidableEq

namespace PyDict

variable {α β : Type} [DecidableEq α]

def empty : PyDict α β := ⟨[]⟩

def keys (d : PyDict α β) : List α := d.entries.map Prod.fst

/-- `len(d)` for a Python dict. -/
def size (d : PyDict α β) : Nat := d.entries.length

/-- `d[k]` lookup (as an option). -/
def get? (d : PyDict α β) (k : α) : Option β :=
  (d.entries.find? fun p => decide (p.1 = k)).map Prod.snd

/-- `d[k] = v`: updates the value in place when the key exists (keeping its
position), otherwise appends the new pair — Python dict assignment. -/
def insert (d : PyDict α β) (k : α) (v : β) : PyDict α β :=
  if d.entries.any (fun p => decide (p.1 = k)) then
    ⟨d.entries.map fun p => if p.1 = k then (k, v) else p⟩
  else
    ⟨d.entries ++ [(k, v)]⟩

/-- `dict(l)` for a list of pairs: inserts in order, later keys overwrite. -/
def ofList (l : List (α × β)) : PyDict α β :=
  l.foldl (fun d p => d.insert p.1 p.2) empty

end PyDict

/-- The data of a loaded `gensim.models.KeyedVectors` word2vec table. -/
structure KeyedVectors where
  index2word : List Token
  vector_size : Nat
  vectors : Mat
deriving DecidableEq

/-- The gensim invariants of a loaded table: one vector per word, each of
length `vector_size`. -/
def KeyedVectors.WF (w : KeyedVectors) : Prop :=
  w.vectors.length = w.index2word.length ∧ ∀ v ∈ w.vectors, v.length = w.vector_size

instance (w : KeyedVectors) : Decidable w.WF := by
  unfold KeyedVectors.WF; infer_instance

/-- The part of `BaseProcessor` this file touches: the four special tokens and
the two vocabulary maps. -/
structure BaseProcessor where
  token_pad : Token
  token_unk : Token
  token_bos : Token
  token_eos : Token
  token2idx : PyDict Token Nat
  idx2token : PyDict Nat Token
deriving DecidableEq

/-- The four reserved tokens, in the order the dict literal lists them. -/
def BaseProcessor.reserved (p : BaseProcessor) : List Token :=
  [p.token_pad, p.token_unk, p.token_bos, p.token_eos]

/-- The state of a `WordEmbedding` object. `sequence_length` is the processed
tuple of configured lengths; `token_count` is the inherited token counter. -/
structure WordEmbedding where
  w2v_path : String
  w2v_model_loaded : Bool
  embedding_size : Nat
  w2v_vector_matrix : Mat
  w2v_token2idx : PyDict Token Nat
  w2v_top_words : List Token
  processor : BaseProcessor
  sequence_length : List Nat
  token_count : Nat
deriving DecidableEq

/-- numpy broadcasting of a source along one dimension: a source whose length
already matches the destination extent is used as is, a length-1 source is
repeated to the destination extent, and any other length mismatch is not
broadcastable (`none`). -/
def bcast {α : Type} [Inhabited α] (n : Nat) (l : List α) : Option (List α) :=
  if l.length = n then some l
  else if l.length = 1 then some (List.replicate n l.headI)
  else none

/-- numpy row assignment `m[i] = v`: raises (`none`) when the index is out of
range or the vector does not broadcast to the row's width. -/
def setRow (m : Mat) (i : Nat) (v : Vec) : Option Mat :=
  match m.get? i with
  | some row =>
    match bcast row.length v with
    | some v2 => some (m.set i v2)
    | none => none
  | none => none

/-- numpy slice assignment `m[i:] = vs`: the source array is broadcast onto
the destination slice — along each dimension the source extent must equal the
destination extent or be 1 — and a non-broadcastable shape raises (`none`).
In particular a single source row assigned to an empty slice is a silent
no-op, while two or more source rows against an empty slice raise. (The rows
of a numpy destination all have the same width, so checking the column rule
row by row agrees with numpy.) -/
def setSliceFrom (m : Mat) (i : Nat) (vs : Mat) : Option Mat :=
  match bcast (m.drop i).length vs with
  | none => none
  | some rows =>
    let paired := (m.drop i).zip rows
    if paired.all fun p => (bcast p.1.length p.2).isSome then
      some (m.take i ++ paired.map fun p => (bcast p.1.length p.2).getD [])
    else none

/-- The loop `for token in w2v.index2word: token2idx[token] = len(token2idx)`. -/
def addTokens (d : PyDict Token Nat) (ts : List Token) : PyDict Token Nat :=
  ts.foldl (fun d t => d.insert t d.size) d

/-- The dict literal `{token_pad: 0, token_unk: 1, token_bos: 2, token_eos: 3}`
(a Python dict literal is built by inserting the pairs in order). -/
def reservedDict (p : BaseProcessor) : PyDict Token Nat :=
  ((((PyDict.empty).insert p.token_pad 0).insert
      p.token_unk 1).insert
      p.token_bos 2).insert p.token_eos 3

/-- `WordEmbedding._build_token2idx_from_w2v`. The load result and the random
draw for the unknown-token row are parameters; the returned pair is the state
of `self` at return/raise time together with the propagated exception, if any. -/
def build_token2idx_from_w2v (e : WordEmbedding)
    (load : Except String KeyedVectors) (randvec : Vec) :
    WordEmbedding × Option String :=
  match load with
  | .error msg => (e, some msg)
  | .ok w2v =>
    let token2idx := addTokens (reservedDict e.processor) w2v.index2word
    let m0 : Mat :=
      List.replicate token2idx.size (List.replicate w2v.vector_size 0)
    match setRow m0 1 randvec with
    | none => (e, some "IndexError")
    | some m1 =>
      match setSliceFrom m1 4 w2v.vectors with
      | none => (e, some "ValueError")
      | some m2 =>
        let processor := { e.processor with
          token2idx := token2idx,
          idx2token :=
            PyDict.ofList (token2idx.entries.map fun p => (p.2, p.1)) }
        ({ e with
            embedding_size := w2v.vector_size,
            w2v_vector_matrix := m2,
            w2v_token2idx := token2idx,
            w2v_top_words := w2v.index2word.take 50,
            w2v_model_loaded := true,
            processor := processor }, none)

/-- The state after a successful `_build_token2idx_from_w2v` call. -/
def buildState (e : WordEmbedding) (w2v : KeyedVectors) (randvec : Vec) :
    WordEmbedding :=
  (build_token2idx_from_w2v e (Except.ok w2v) randvec).1

/-- A keras `Input` placeholder, by its shape and name. -/
structure InputLayer where
  shape : List Nat
  name : String
deriving DecidableEq

/-- A keras `Embedding` layer, by its constructor arguments. -/
structure EmbeddingLayer where
  input_dim : Nat
  output_dim : Nat
  weights : List Mat
  trainable : Bool
  name : String
deriving DecidableEq

/-- A symbolic output tensor of the assembled graph: the result of applying
branch `i`'s embedding layer to branch `i`'s input, or of concatenating. -/
inductive TensorExpr where
  | embedApplied (branch : Nat) : TensorExpr
  | concatApplied (args : List TensorExpr) : TensorExpr

/-- The `keras.Model(input_layers, output)` call: its inputs and outputs. -/
structure KerasModel where
  inputs : List InputLayer
  outputs : List TensorExpr

/-- Everything `_build_model` creates. -/
structure BuildModelResult where
  input_layers : List InputLayer
  embedding_layers : List EmbeddingLayer
  output_layers : List TensorExpr
  concat_created : Bool
  embed_model : KerasModel

/-- `WordEmbedding._build_model`: `none` when `token_count == 0` (the method
only logs and builds nothing). -/
def build_model (e : WordEmbedding) : Option BuildModelResult :=
  if e.token_count = 0 then none
  else
    let branches := e.sequence_length.enum.map fun p =>
      let input_tensor : InputLayer :=
        { shape := [p.2], name := "input_" ++ toString p.1 }
      let layer_embedding : EmbeddingLayer :=
        { input_dim := e.token_count,
          output_dim := e.embedding_size,
          weights := [e.w2v_vector_matrix],
          trainable := false,
          name := "layer_embedding_" ++ toString p.1 }
      (input_tensor, layer_embedding, TensorExpr.embedApplied p.1)
    let input_layers := branches.map fun b => b.1
    let embedding_layers := branches.map fun b => b.2.1
    let output_layers := branches.map fun b => b.2.2
    if 1 < output_layers.length then
      some { input_layers := input_layers,
             embedding_layers := embedding_layers,
             output_layers := output_layers,
             concat_created := true,
             embed_model :=
               { inputs := input_layers,
                 outputs := [TensorExpr.concatApplied output_layers] } }
    else
      some { input_layers := input_layers,
             embedding_layers := embedding_layers,
             output_layers := output_layers,
             concat_created := false,
             embed_model :=
               { inputs := input_layers, outputs := output_layers } }

/-- Modelled from the spec: the base-class method `Embedding.analyze_corpus`
is not part of this repository fragment (the spec places the
`Embedding`/`BaseProcessor` hierarchy out of scope and ascribes to it only
corpus pre-processing). It is modelled as an arbitrary update `f` of the
processor, with the inherited `token_count` kept in step; it does not touch
the word2vec fields this file owns. -/
def super_analyze_corpus (f : BaseProcessor → BaseProcessor)
    (e : WordEmbedding) : WordEmbedding :=
  let p := f e.processor
  { e with processor := p, token_count := p.token2idx.size }

/-- `WordEmbedding.analyze_corpus`: loads the word2vec table only when
`w2v_model_loaded` is still false, then delegates to the base class. -/
def analyze_corpus (e : WordEmbedding)
    (load : Except String KeyedVectors) (randvec : Vec)
    (f : BaseProcessor → BaseProcessor) : WordEmbedding × Option String :=
  match (if e.w2v_model_loaded then (e, none)
         else build_token2idx_from_w2v e load randvec) with
  | (e1, none) => (super_analyze_corpus f e1, none)
  | (e1, some msg) => (e1, some msg)

/-! ## Dictionary lemmas -/

namespace PyDict

variable {α β : Type} [DecidableEq α]

theorem insert_fresh (d : PyDict α β) (k : α) (v : β) (h : k ∉ d.keys) :
    (d.insert k v).entries = d.entries ++ [(k, v)] := by
  have hany : d.entries.any (fun p => decide (p.1 = k)) = false := by
    rw [List.any_eq_false]
    intro p hp hpk
    rw [decide_eq_true_eq] at hpk
    exact h (hpk ▸ List.mem_map_of_mem Prod.fst hp)
  unfold insert
  simp [hany]

theorem keys_insert_fresh (d : PyDict α β) (k : α) (v : β) (h : k ∉ d.keys) :
    (d.insert k v).keys = d.keys ++ [k] := by
  unfold keys
  rw [insert_fresh d k v h]
  simp

theorem size_insert_fresh (d : PyDict α β) (k : α) (v : β) (h : k ∉ d.keys) :
    (d.insert k v).size = d.size + 1 := by
  unfold size
  rw [insert_fresh d k v h]
  simp

end PyDict

theorem addTokens_entries (ts : List Token) :
    ∀ d : PyDict Token Nat, (∀ t ∈ ts, t ∉ d.keys) → ts.Nodup →
    (addTokens d ts).entries = d.entries ++ ts.zip (List.range' d.size ts.length) := by
  induction ts with
  | nil =>
    intro d _ _
    simp [addTokens]
  | cons t ts ih =>
    intro d hfresh hnd
    have ht : t ∉ d.keys := hfresh t (List.mem_cons_self t ts)
    have hnd' := List.nodup_cons.mp hnd
    have hstep : addTokens d (t :: ts) = addTokens (d.insert t d.size) ts := rfl
    have hfresh' : ∀ u ∈ ts, u ∉ (d.insert t d.size).keys := by
      intro u hu
      rw [PyDict.keys_insert_fresh d t d.size ht]
      intro hmem
      rcases List.mem_append.mp hmem with hl | hr
      · exact hfresh u (List.mem_cons_of_mem t hu) hl
      · rw [List.mem_singleton] at hr
        exact hnd'.1 (hr ▸ hu)
    rw [hstep, ih (d.insert t d.size) hfresh' hnd'.2,
        PyDict.insert_fresh d t d.size ht,
        PyDict.size_insert_fresh d t d.size ht]
    simp [List.range'_succ]

theorem reservedDict_entries (p : BaseProcessor) (h : p.reserved.Nodup) :
    (reservedDict p).entries =
      [(p.token_pad, 0), (p.token_unk, 1), (p.token_bos, 2), (p.token_eos, 3)] := by
  simp only [BaseProcessor.reserved, List.nodup_cons, List.mem_cons,
    List.mem_singleton, List.not_mem_nil, not_false_eq_true, and_true,
    not_or, List.nodup_nil] at h
  obtain ⟨⟨hpu, hpb, hpe⟩, ⟨hub, hue⟩, hbe⟩ := h
  simp [reservedDict, PyDict.insert, PyDict.empty, hpu, hpb, hpe, hub, hue, hbe,
    Ne.symm hpu, Ne.symm hpb, Ne.symm hpe, Ne.symm hub, Ne.symm hue, Ne.symm hbe]

theorem reservedDict_keys (p : BaseProcessor) (h : p.reserved.Nodup) :
    (reservedDict p).keys = p.reserved := by
  simp [PyDict.keys, reservedDict_entries p h, BaseProcessor.reserved]

theorem reservedDict_size (p : BaseProcessor) (h : p.reserved.Nodup) :
    (reservedDict p).size = 4 := by
  simp [PyDict.size, reservedDict_entries p h]

theorem PyDict.eq_of_entries {α β : Type} {d1 d2 : PyDict α β}
    (h : d1.entries = d2.entries) : d1 = d2 := by
  cases d1
  cases d2
  simpa using h

/-! ## The successful build, in closed form -/

/-- The token2idx built when the loaded vocabulary avoids the reserved tokens:
the four reserved pairs followed by the loaded tokens indexed consecutively
from 4. -/
def expectedToken2idx (p : BaseProcessor) (ts : List Token) : PyDict Token Nat :=
  ⟨[(p.token_pad, 0), (p.token_unk, 1), (p.token_bos, 2), (p.token_eos, 3)] ++
    ts.zip (List.range' 4 ts.length)⟩

/-- The matrix built on the same run: a zero row for pad, the random draw for
unk, zero rows for bos and eos, then the loaded vectors. -/
def expectedMat (d : Nat) (rv : Vec) (vs : Mat) : Mat :=
  [List.replicate d 0, rv, List.replicate d 0, List.replicate d 0] ++ vs

theorem addTokens_reserved (p : BaseProcessor) (ts : List Token)
    (hres : p.reserved.Nodup) (hnd : ts.Nodup)
    (hdisj : ∀ t ∈ ts, t ∉ p.reserved) :
    addTokens (reservedDict p) ts = expectedToken2idx p ts := by
  have h1 : ∀ t ∈ ts, t ∉ (reservedDict p).keys := by
    intro t htm
    rw [reservedDict_keys p hres]
    exact hdisj t htm
  apply PyDict.eq_of_entries
  rw [addTokens_entries ts (reservedDict p) h1 hnd,
      reservedDict_entries p hres, reservedDict_size p hres]
  rfl

theorem expectedToken2idx_size (p : BaseProcessor) (ts : List Token) :
    (expectedToken2idx p ts).size = 4 + ts.length := by
  simp only [expectedToken2idx, PyDict.size, List.length_append, List.length_zip,
    List.length_range', Nat.min_self, List.length_cons, List.length_nil]

theorem setSliceFrom_exact (m : Mat) (i : Nat) (vs : Mat)
    (hlen : (m.drop i).length = vs.length)
    (hwid : ∀ p ∈ (m.drop i).zip vs, p.1.length = p.2.length) :
    setSliceFrom m i vs = some (m.take i ++ vs) := by
  have hb : bcast (m.drop i).length vs = some vs := by
    unfold bcast
    rw [if_pos hlen.symm]
  have hall : ((m.drop i).zip vs).all
      (fun p => (bcast p.1.length p.2).isSome) = true := by
    rw [List.all_eq_true]
    intro p hp
    unfold bcast
    rw [if_pos (hwid p hp).symm]
    rfl
  have hmap : ((m.drop i).zip vs).map
      (fun p => (bcast p.1.length p.2).getD []) = vs := by
    have hpt : ∀ p ∈ (m.drop i).zip vs,
        (fun p : Vec × Vec => (bcast p.1.length p.2).getD []) p
          = (fun p : Vec × Vec => p.2) p := by
      intro p hp
      have h := (hwid p hp).symm
      simp [bcast, h]
    rw [List.map_congr_left hpt]
    exact List.map_snd_zip _ _ (le_of_eq hlen.symm)
  unfold setSliceFrom
  rw [hb]
  simp only [hall, if_true, hmap]

theorem build_ok (e : WordEmbedding) (w2v : KeyedVectors) (rv : Vec)
    (hres : e.processor.reserved.Nodup)
    (hnd : w2v.index2word.Nodup)
    (hdisj : ∀ t ∈ w2v.index2word, t ∉ e.processor.reserved)
    (hWF : w2v.WF)
    (hrv : rv.length = w2v.vector_size) :
    build_token2idx_from_w2v e (Except.ok w2v) rv =
      ({ e with
          embedding_size := w2v.vector_size,
          w2v_vector_matrix := expectedMat w2v.vector_size rv w2v.vectors,
          w2v_token2idx := expectedToken2idx e.processor w2v.index2word,
          w2v_top_words := w2v.index2word.take 50,
          w2v_model_loaded := true,
          processor := { e.processor with
            token2idx := expectedToken2idx e.processor w2v.index2word,
            idx2token := PyDict.ofList
              ((expectedToken2idx e.processor w2v.index2word).entries.map
                fun p => (p.2, p.1)) } }, none) := by
  have htok := addTokens_reserved e.processor w2v.index2word hres hnd hdisj
  set n := w2v.index2word.length with hn
  set d := w2v.vector_size with hd
  set z : Vec := List.replicate d 0 with hz
  have hm0 : List.replicate (expectedToken2idx e.processor w2v.index2word).size z
      = z :: z :: z :: z :: List.replicate n z := by
    rw [expectedToken2idx_size, List.replicate_add]
    rfl
  have hrow : setRow (z :: z :: z :: z :: List.replicate n z) 1 rv
      = some (z :: rv :: z :: z :: List.replicate n z) := by
    have hzlen : rv.length = z.length := by
      rw [hz, List.length_replicate, hrv]
    have hb : bcast z.length rv = some rv := by
      unfold bcast
      rw [if_pos hzlen]
    simp [setRow, hb]
  have hslice : setSliceFrom (z :: rv :: z :: z :: List.replicate n z) 4 w2v.vectors
      = some (expectedMat d rv w2v.vectors) := by
    have hlen : ((z :: rv :: z :: z :: List.replicate n z).drop 4).length
        = w2v.vectors.length := by
      simp only [List.drop_succ_cons, List.drop_zero, List.length_replicate]
      rw [hn, hWF.1]
    have hwid : ∀ p ∈ ((z :: rv :: z :: z :: List.replicate n z).drop 4).zip w2v.vectors,
        p.1.length = p.2.length := by
      intro p hp
      simp only [List.drop_succ_cons, List.drop_zero] at hp
      have h1 := List.eq_of_mem_replicate (List.of_mem_zip hp).1
      have h2 := hWF.2 p.2 (List.of_mem_zip hp).2
      rw [h1, hz, List.length_replicate, h2]
    rw [setSliceFrom_exact (z :: rv :: z :: z :: List.replicate n z) 4 w2v.vectors
      hlen hwid]
    rfl
  simp only [build_token2idx_from_w2v, htok, hm0, hrow, hslice]

/-! ## Lookup lemmas -/

theorem find?_zip_range' (ts : List Token) :
    ∀ s i : Nat, ts.Nodup → ∀ hi : i < ts.length,
    (ts.zip (List.range' s ts.length)).find? (fun p => decide (p.1 = ts[i])) =
      some (ts[i], s + i) := by
  induction ts with
  | nil =>
    intro s i _ hi
    simp at hi
  | cons t ts ih =>
    intro s i hnd hi
    have hnd' := List.nodup_cons.mp hnd
    cases i with
    | zero =>
      simp [List.range'_succ]
    | succ j =>
      have hj : j < ts.length := by
        simpa using hi
      have hne : t ≠ ts[j] := by
        intro hEq
        exact hnd'.1 (hEq ▸ List.getElem_mem hj)
      have h2 := ih (s + 1) j hnd'.2 hj
      have harith : s + 1 + j = s + (j + 1) := by omega
      rw [harith] at h2
      simpa [List.range'_succ, hne] using h2

theorem expectedToken2idx_get_reserved (p : BaseProcessor) (ts : List Token)
    (hres : p.reserved.Nodup) :
    (expectedToken2idx p ts).get? p.token_pad = some 0 ∧
    (expectedToken2idx p ts).get? p.token_unk = some 1 ∧
    (expectedToken2idx p ts).get? p.token_bos = some 2 ∧
    (expectedToken2idx p ts).get? p.token_eos = some 3 := by
  simp only [BaseProcessor.reserved, List.nodup_cons, List.mem_cons,
    List.mem_singleton, List.not_mem_nil, not_false_eq_true, and_true,
    not_or, List.nodup_nil] at hres
  obtain ⟨⟨hpu, hpb, hpe⟩, ⟨hub, hue⟩, hbe⟩ := hres
  refine ⟨?_, ?_, ?_, ?_⟩ <;>
    simp [expectedToken2idx, PyDict.get?, List.find?_cons, hpu, hpb, hpe, hub,
      hue, hbe]

theorem expectedToken2idx_get_loaded (p : BaseProcessor) (ts : List Token)
    (hnd : ts.Nodup) (i : Nat) (hi : i < ts.length)
    (hdisj : ts[i] ∉ p.reserved) :
    (expectedToken2idx p ts).get? ts[i] = some (4 + i) := by
  simp only [BaseProcessor.reserved, List.mem_cons, List.mem_singleton,
    List.not_mem_nil, not_or, or_false] at hdisj
  obtain ⟨h1, h2, h3, h4⟩ := hdisj
  have hz := find?_zip_range' ts 4 i hnd hi
  simp [expectedToken2idx, PyDict.get?, List.find?_cons, Ne.symm h1, Ne.symm h2,
    Ne.symm h3, Ne.symm h4, hz]

/-! ## Concrete instances (used by the witnesses) -/

/-- A processor with the usual four special tokens and empty vocabularies. -/
def procEx : BaseProcessor :=
  { token_pad := "<PAD>", token_unk := "<UNK>", token_bos := "<BOS>",
    token_eos := "<EOS>", token2idx := ⟨[]⟩, idx2token := ⟨[]⟩ }

/-- A freshly constructed embedding object (nothing loaded yet). -/
def embEx : WordEmbedding :=
  { w2v_path := "sample_w2v.txt", w2v_model_loaded := false, embedding_size := 0,
    w2v_vector_matrix := [], w2v_token2idx := ⟨[]⟩, w2v_top_words := [],
    processor := procEx, sequence_length := [12], token_count := 0 }

/-- A two-word loaded table with 1-dimensional vectors. -/
def w2vEx : KeyedVectors :=
  { index2word := ["hello", "world"], vector_size := 1, vectors := [[2], [3]] }

/-- The rational one half, built by its constructor so that it evaluates by
kernel reduction (its field values need no gcd computation). -/
def half : ℚ := ⟨1, 2, by decide, Nat.coprime_one_left 2⟩

/-- A possible draw of `np.random.rand(1)`. -/
def rvEx : Vec := [half]

/-! ## Claims about `_build_token2idx_from_w2v` -/

/-- C1: after `_build_token2idx_from_w2v` runs, the constructed `token2idx`
maps the processor's pad token to 0, unknown token to 1, begin-of-sequence
token to 2 and end-of-sequence token to 3, and maps the loaded word2vec tokens
to consecutive indices 4, 5, … in the order the loader returns them, provided
the loaded vocabulary contains none of the four (pairwise-distinct) reserved
tokens. -/
theorem build_token2idx_reserved_and_loaded_indices
    (e : WordEmbedding) (w2v : KeyedVectors) (rv : Vec)
    (hres : e.processor.reserved.Nodup)
    (hnd : w2v.index2word.Nodup)
    (hdisj : ∀ t ∈ w2v.index2word, t ∉ e.processor.reserved)
    (hWF : w2v.WF)
    (hrv : rv.length = w2v.vector_size) :
    (buildState e w2v rv).w2v_token2idx.get? e.processor.token_pad = some 0 ∧
    (buildState e w2v rv).w2v_token2idx.get? e.processor.token_unk = some 1 ∧
    (buildState e w2v rv).w2v_token2idx.get? e.processor.token_bos = some 2 ∧
    (buildState e w2v rv).w2v_token2idx.get? e.processor.token_eos = some 3 ∧
    ∀ i : Nat, ∀ hi : i < w2v.index2word.length,
      (buildState e w2v rv).w2v_token2idx.get? w2v.index2word[i] = some (4 + i) := by
  have hfield : (buildState e w2v rv).w2v_token2idx
      = expectedToken2idx e.processor w2v.index2word := by
    unfold buildState
    rw [build_ok e w2v rv hres hnd hdisj hWF hrv]
  rw [hfield]
  obtain ⟨g0, g1, g2, g3⟩ :=
    expectedToken2idx_get_reserved e.processor w2v.index2word hres
  refine ⟨g0, g1, g2, g3, ?_⟩
  intro i hi
  exact expectedToken2idx_get_loaded e.processor w2v.index2word hnd i hi
    (hdisj _ (List.getElem_mem hi))

/-- Witness for C1 at a concrete processor and a concrete two-word table. -/
theorem build_token2idx_reserved_and_loaded_indices_witness :
    (buildState embEx w2vEx rvEx).w2v_token2idx.get? "<PAD>" = some 0 ∧
    (buildState embEx w2vEx rvEx).w2v_token2idx.get? "<UNK>" = some 1 ∧
    (buildState embEx w2vEx rvEx).w2v_token2idx.get? "<BOS>" = some 2 ∧
    (buildState embEx w2vEx rvEx).w2v_token2idx.get? "<EOS>" = some 3 ∧
    (buildState embEx w2vEx rvEx).w2v_token2idx.get? "hello" = some 4 ∧
    (buildState embEx w2vEx rvEx).w2v_token2idx.get? "world" = some 5 := by
  have h := build_token2idx_reserved_and_loaded_indices embEx w2vEx rvEx
    (by decide) (by decide) (by decide) (by decide) (by decide)
  refine ⟨h.1, h.2.1, h.2.2.1, h.2.2.2.1, ?_, ?_⟩
  · simpa [w2vEx] using h.2.2.2.2 0 (by decide)
  · simpa [w2vEx] using h.2.2.2.2 1 (by decide)

/-- C2: after `_build_token2idx_from_w2v` runs, for every token loaded from the
word2vec table, the row of `w2v_vector_matrix` at `token2idx[token]` is that
token's loaded vector; equivalently, rows 4 onward of the matrix are exactly
the loaded vectors in loader order, provided the loaded vocabulary contains
none of the four reserved tokens. -/
theorem build_vector_matrix_rows_align_with_tokens
    (e : WordEmbedding) (w2v : KeyedVectors) (rv : Vec)
    (hres : e.processor.reserved.Nodup)
    (hnd : w2v.index2word.Nodup)
    (hdisj : ∀ t ∈ w2v.index2word, t ∉ e.processor.reserved)
    (hWF : w2v.WF)
    (hrv : rv.length = w2v.vector_size) :
    (buildState e w2v rv).w2v_vector_matrix.drop 4 = w2v.vectors ∧
    ∀ i : Nat, ∀ hi : i < w2v.index2word.length,
      (buildState e w2v rv).w2v_token2idx.get? w2v.index2word[i] = some (4 + i) ∧
      (buildState e w2v rv).w2v_vector_matrix[4 + i]? = w2v.vectors[i]? := by
  have hb := build_ok e w2v rv hres hnd hdisj hWF hrv
  have hmat : (buildState e w2v rv).w2v_vector_matrix
      = expectedMat w2v.vector_size rv w2v.vectors := by
    unfold buildState
    rw [hb]
  have htok : (buildState e w2v rv).w2v_token2idx
      = expectedToken2idx e.processor w2v.index2word := by
    unfold buildState
    rw [hb]
  refine ⟨?_, ?_⟩
  · rw [hmat]
    simp [expectedMat]
  · intro i hi
    refine ⟨?_, ?_⟩
    · rw [htok]
      exact expectedToken2idx_get_loaded e.processor w2v.index2word hnd i hi
        (hdisj _ (List.getElem_mem hi))
    · rw [hmat]
      show (expectedMat w2v.vector_size rv w2v.vectors)[4 + i]? = w2v.vectors[i]?
      unfold expectedMat
      rw [List.getElem?_append_right (by simp)]
      simp

/-- Witness for C2: the rows behind the two loaded words hold their vectors. -/
theorem build_vector_matrix_rows_align_with_tokens_witness :
    (buildState embEx w2vEx rvEx).w2v_vector_matrix.drop 4 = [[2], [3]] ∧
    (buildState embEx w2vEx rvEx).w2v_token2idx.get? "hello" = some 4 ∧
    (buildState embEx w2vEx rvEx).w2v_vector_matrix[4]? = some [2] ∧
    (buildState embEx w2vEx rvEx).w2v_token2idx.get? "world" = some 5 ∧
    (buildState embEx w2vEx rvEx).w2v_vector_matrix[5]? = some [3] := by
  have h := build_vector_matrix_rows_align_with_tokens embEx w2vEx rvEx
    (by decide) (by decide) (by decide) (by decide) (by decide)
  have h0 := h.2 0 (by decide)
  have h1 := h.2 1 (by decide)
  refine ⟨by simpa [w2vEx] using h.1, ?_, ?_, ?_, ?_⟩
  · simpa [w2vEx] using h0.1
  · simpa [w2vEx] using h0.2
  · simpa [w2vEx] using h1.1
  · simpa [w2vEx] using h1.2

/-- C3 counterexample: the claim says every entry of rows 0 through 3 of the
built matrix is zero, but the code assigns `np.random.rand(vector_size)` to
row 1 (the unknown token's row); on a concrete successful run with draw
`[1/2]` row 1 is `[1/2]`, not the zero row. -/
theorem build_vector_matrix_unk_row_not_zero :
    (build_token2idx_from_w2v embEx (Except.ok w2vEx) rvEx).2 = none ∧
    (buildState embEx w2vEx rvEx).w2v_vector_matrix[1]? = some [half] ∧
    some [half] ≠ some (List.replicate w2vEx.vector_size (0 : ℚ)) := by
  refine ⟨by decide, by decide, by decide⟩

/-- C3 amended: the matrix built by `_build_token2idx_from_w2v` is
zero-initialized with the loaded vectors placed after the four reserved rows,
except that row 1 (the unknown token's row) is overwritten with the random
draw: rows 0, 2 and 3 are all-zero, row 1 is the drawn vector, and only rows
from index 4 onward hold the loaded vectors. -/
theorem build_vector_matrix_zero_except_unk_row
    (e : WordEmbedding) (w2v : KeyedVectors) (rv : Vec)
    (hres : e.processor.reserved.Nodup)
    (hnd : w2v.index2word.Nodup)
    (hdisj : ∀ t ∈ w2v.index2word, t ∉ e.processor.reserved)
    (hWF : w2v.WF)
    (hrv : rv.length = w2v.vector_size) :
    (buildState e w2v rv).w2v_vector_matrix[0]?
        = some (List.replicate w2v.vector_size 0) ∧
    (buildState e w2v rv).w2v_vector_matrix[1]? = some rv ∧
    (buildState e w2v rv).w2v_vector_matrix[2]?
        = some (List.replicate w2v.vector_size 0) ∧
    (buildState e w2v rv).w2v_vector_matrix[3]?
        = some (List.replicate w2v.vector_size 0) ∧
    (buildState e w2v rv).w2v_vector_matrix.drop 4 = w2v.vectors := by
  have hmat : (buildState e w2v rv).w2v_vector_matrix
      = expectedMat w2v.vector_size rv w2v.vectors := by
    unfold buildState
    rw [build_ok e w2v rv hres hnd hdisj hWF hrv]
  rw [hmat]
  refine ⟨?_, ?_, ?_, ?_, ?_⟩ <;> simp [expectedMat]

/-- Witness for the amended C3 on the concrete run. -/
theorem build_vector_matrix_zero_except_unk_row_witness :
    (buildState embEx w2vEx rvEx).w2v_vector_matrix[0]? = some [(0 : ℚ)] ∧
    (buildState embEx w2vEx rvEx).w2v_vector_matrix[1]? = some [half] ∧
    (buildState embEx w2vEx rvEx).w2v_vector_matrix[2]? = some [(0 : ℚ)] ∧
    (buildState embEx w2vEx rvEx).w2v_vector_matrix[3]? = some [(0 : ℚ)] ∧
    (buildState embEx w2vEx rvEx).w2v_vector_matrix.drop 4 = [[2], [3]] := by
  have h := build_vector_matrix_zero_except_unk_row embEx w2vEx rvEx
    (by decide) (by decide) (by decide) (by decide) (by decide)
  exact ⟨by simpa [w2vEx] using h.1, by simpa [rvEx] using h.2.1,
    by simpa [w2vEx] using h.2.2.1, by simpa [w2vEx] using h.2.2.2.1,
    by simpa [w2vEx] using h.2.2.2.2⟩

/-! ## Error propagation and idempotent loading -/

/-- C8: if loading the word2vec table raises, `_build_token2idx_from_w2v`
propagates the exception and leaves the object's state unchanged — the
returned state is exactly the state before the call, so `w2v_model_loaded`,
`embedding_size`, `w2v_vector_matrix`, `w2v_token2idx` and the processor's
vocabularies are all unmodified. -/
theorem build_token2idx_propagates_load_error
    (e : WordEmbedding) (msg : String) (rv : Vec) :
    build_token2idx_from_w2v e (Except.error msg) rv = (e, some msg) := rfl

/-- An object whose word2vec table has already been loaded. -/
def embLoaded : WordEmbedding := { embEx with w2v_model_loaded := true }

/-- C9: once `w2v_model_loaded` is true, a call to `analyze_corpus` does not
load the word2vec table again: `w2v_token2idx`, `w2v_vector_matrix` and
`embedding_size` are unchanged, `w2v_model_loaded` stays true and no
exception escapes, whatever the loader would have produced. -/
theorem analyze_corpus_skips_loading_when_loaded
    (e : WordEmbedding) (load : Except String KeyedVectors) (rv : Vec)
    (f : BaseProcessor → BaseProcessor)
    (h : e.w2v_model_loaded = true) :
    (analyze_corpus e load rv f).1.w2v_token2idx = e.w2v_token2idx ∧
    (analyze_corpus e load rv f).1.w2v_vector_matrix = e.w2v_vector_matrix ∧
    (analyze_corpus e load rv f).1.embedding_size = e.embedding_size ∧
    (analyze_corpus e load rv f).1.w2v_model_loaded = true ∧
    (analyze_corpus e load rv f).2 = none := by
  simp [analyze_corpus, super_analyze_corpus, h]

/-- Witness for C9: a loaded object is untouched by a further call, even when
reloading would have failed. -/
theorem analyze_corpus_skips_loading_when_loaded_witness :
    (analyze_corpus embLoaded (Except.error "file not found") rvEx id).1.w2v_token2idx
        = embLoaded.w2v_token2idx ∧
    (analyze_corpus embLoaded (Except.error "file not found") rvEx id).1.w2v_vector_matrix
        = embLoaded.w2v_vector_matrix ∧
    (analyze_corpus embLoaded (Except.error "file not found") rvEx id).1.embedding_size
        = embLoaded.embedding_size ∧
    (analyze_corpus embLoaded (Except.error "file not found") rvEx id).1.w2v_model_loaded
        = true ∧
    (analyze_corpus embLoaded (Except.error "file not found") rvEx id).2 = none :=
  analyze_corpus_skips_loading_when_loaded embLoaded
    (Except.error "file not found") rvEx id (by decide)

/-! ## Model graph construction -/

/-- The input placeholders `_build_model` creates, one per sequence length. -/
def inputsOf (e : WordEmbedding) : List InputLayer :=
  e.sequence_length.enum.map fun p =>
    { shape := [p.2], name := "input_" ++ toString p.1 }

/-- The embedding layers `_build_model` creates, one per sequence length. -/
def embedsOf (e : WordEmbedding) : List EmbeddingLayer :=
  e.sequence_length.enum.map fun p =>
    { input_dim := e.token_count, output_dim := e.embedding_size,
      weights := [e.w2v_vector_matrix], trainable := false,
      name := "layer_embedding_" ++ toString p.1 }

/-- The branch outputs of `_build_model`, one per sequence length. -/
def outsOf (e : WordEmbedding) : List TensorExpr :=
  e.sequence_length.enum.map fun p => TensorExpr.embedApplied p.1

theorem build_model_ok (e : WordEmbedding) (h : e.token_count ≠ 0) :
    build_model e = some
      { input_layers := inputsOf e,
        embedding_layers := embedsOf e,
        output_layers := outsOf e,
        concat_created := decide (1 < e.sequence_length.length),
        embed_model :=
          { inputs := inputsOf e,
            outputs := if 1 < e.sequence_length.length then
                [TensorExpr.concatApplied (outsOf e)]
              else outsOf e } } := by
  unfold build_model
  rw [if_neg h]
  by_cases hlen : 1 < e.sequence_length.length
  · simp [hlen, List.map_map, inputsOf, embedsOf, outsOf, List.enum_length,
      Function.comp]
  · simp [hlen, List.map_map, inputsOf, embedsOf, outsOf, List.enum_length,
      Function.comp]

/-- A state ready for `_build_model` with two configured sequence lengths
(as in the file's `__main__` example, which uses `(12, 20)`). -/
def embModelEx : WordEmbedding :=
  { embEx with
      token_count := 6, embedding_size := 1,
      w2v_vector_matrix := [[0], [half], [0], [0], [2], [3]],
      sequence_length := [12, 20] }

/-- The same state with a single configured sequence length. -/
def embModelEx1 : WordEmbedding :=
  { embModelEx with sequence_length := [50] }

/-- C4: when `_build_model` runs with a non-zero token count it creates
exactly one input placeholder and exactly one embedding lookup layer per
configured sequence length; `embed_model` takes exactly those inputs, and the
i-th input has shape `(sequence_length[i],)`. -/
theorem build_model_one_branch_per_sequence_length
    (e : WordEmbedding) (h : e.token_count ≠ 0) :
    (build_model e).map (fun r => r.input_layers.length)
        = some e.sequence_length.length ∧
    (build_model e).map (fun r => r.embedding_layers.length)
        = some e.sequence_length.length ∧
    (build_model e).map (fun r => r.embed_model.inputs)
        = (build_model e).map (fun r => r.input_layers) ∧
    ∀ i : Nat, ∀ hi : i < e.sequence_length.length,
      (build_model e).map (fun r => r.input_layers[i]?)
        = some (some { shape := [e.sequence_length[i]],
                       name := "input_" ++ toString i }) := by
  rw [build_model_ok e h]
  refine ⟨?_, ?_, rfl, ?_⟩
  · simp [inputsOf, List.enum_length]
  · simp [embedsOf, List.enum_length]
  · intro i hi
    simp [inputsOf, List.getElem?_map, List.getElem?_enum,
      List.getElem?_eq_getElem hi]

/-- Witness for C4 with sequence lengths `(12, 20)`. -/
theorem build_model_one_branch_per_sequence_length_witness :
    (build_model embModelEx).map (fun r => r.input_layers.length) = some 2 ∧
    (build_model embModelEx).map (fun r => r.embedding_layers.length) = some 2 ∧
    (build_model embModelEx).map (fun r => r.input_layers[0]?)
        = some (some { shape := [12], name := "input_0" }) ∧
    (build_model embModelEx).map (fun r => r.input_layers[1]?)
        = some (some { shape := [20], name := "input_1" }) := by
  have h := build_model_one_branch_per_sequence_length embModelEx (by decide)
  exact ⟨h.1, h.2.1, h.2.2.2 0 (by decide), h.2.2.2 1 (by decide)⟩

/-- C5: every embedding layer `_build_model` creates is non-trainable
(constructed with trainable=False) and is initialized with the same matrix
`self.w2v_vector_matrix`, for every configured sequence length. -/
theorem build_model_embedding_layers_frozen_shared_matrix
    (e : WordEmbedding) (h : e.token_count ≠ 0) :
    (build_model e).map (fun r => r.embedding_layers.length)
        = some e.sequence_length.length ∧
    ∀ i : Nat, ∀ hi : i < e.sequence_length.length,
      (build_model e).map (fun r => r.embedding_layers[i]?.map
          (fun l => (l.trainable, l.weights)))
        = some (some (false, [e.w2v_vector_matrix])) := by
  rw [build_model_ok e h]
  refine ⟨by simp [embedsOf, List.enum_length], ?_⟩
  intro i hi
  simp [embedsOf, List.getElem?_map, List.getElem?_enum,
    List.getElem?_eq_getElem hi]

/-- Witness for C5: both layers are frozen and share the loaded matrix. -/
theorem build_model_embedding_layers_frozen_shared_matrix_witness :
    (build_model embModelEx).map (fun r => r.embedding_layers.length) = some 2 ∧
    (build_model embModelEx).map (fun r => r.embedding_layers[0]?.map
        (fun l => (l.trainable, l.weights)))
      = some (some (false, [[[0], [half], [0], [0], [2], [3]]])) ∧
    (build_model embModelEx).map (fun r => r.embedding_layers[1]?.map
        (fun l => (l.trainable, l.weights)))
      = some (some (false, [[[0], [half], [0], [0], [2], [3]]])) := by
  have h := build_model_embedding_layers_frozen_shared_matrix embModelEx (by decide)
  exact ⟨h.1, h.2 0 (by decide), h.2 1 (by decide)⟩

/-- C6: `_build_model` concatenates the branch outputs if and only if more
than one sequence length is configured: with two or more lengths the
`embed_model` output is the concatenation of all branch outputs; with exactly
one length no Concatenate layer is created and the single branch's output is
used. -/
theorem build_model_concatenate_iff_multiple_lengths
    (e : WordEmbedding) (h : e.token_count ≠ 0) :
    ((build_model e).map (fun r => r.concat_created) = some true
        ↔ 1 < e.sequence_length.length) ∧
    (1 < e.sequence_length.length →
      (build_model e).map (fun r => r.embed_model.outputs)
        = (build_model e).map
            (fun r => [TensorExpr.concatApplied r.output_layers])) ∧
    (e.sequence_length.length = 1 →
      (build_model e).map (fun r => r.concat_created) = some false ∧
      (build_model e).map (fun r => r.embed_model.outputs)
        = (build_model e).map (fun r => r.output_layers) ∧
      (build_model e).map (fun r => r.output_layers.length) = some 1) := by
  rw [build_model_ok e h]
  refine ⟨by simp, ?_, ?_⟩
  · intro hlen
    simp [hlen]
  · intro hlen
    have hnot : ¬ 1 < e.sequence_length.length := by omega
    simp [hnot, outsOf, List.enum_length, hlen]

/-- Witness for C6: two lengths concatenate, a single length does not. -/
theorem build_model_concatenate_iff_multiple_lengths_witness :
    (build_model embModelEx).map (fun r => r.concat_created) = some true ∧
    (build_model embModelEx1).map (fun r => r.concat_created) = some false ∧
    (build_model embModelEx1).map (fun r => r.output_layers.length) = some 1 := by
  have h2 := build_model_concatenate_iff_multiple_lengths embModelEx (by decide)
  have h1 := build_model_concatenate_iff_multiple_lengths embModelEx1 (by decide)
  exact ⟨h2.1.mpr (by decide), (h1.2.2 (by decide)).1, (h1.2.2 (by decide)).2.2⟩

/-! ## Processor vocabulary alignment -/

theorem ofList_loop {α β : Type} [DecidableEq α] (l : List (α × β)) :
    ∀ d : PyDict α β, (∀ p ∈ l, p.1 ∉ d.keys) → (l.map Prod.fst).Nodup →
    (l.foldl (fun d p => d.insert p.1 p.2) d).entries = d.entries ++ l := by
  induction l with
  | nil =>
    intro d _ _
    simp
  | cons q l ih =>
    intro d hfresh hnd
    have hq : q.1 ∉ d.keys := hfresh q (List.mem_cons_self q l)
    rw [List.map_cons] at hnd
    have hnd' := List.nodup_cons.mp hnd
    have hfresh' : ∀ p ∈ l, p.1 ∉ (d.insert q.1 q.2).keys := by
      intro p hp
      rw [PyDict.keys_insert_fresh d q.1 q.2 hq]
      intro hmem
      rcases List.mem_append.mp hmem with hl | hr
      · exact hfresh p (List.mem_cons_of_mem q hp) hl
      · rw [List.mem_singleton] at hr
        exact hnd'.1 (hr ▸ List.mem_map_of_mem Prod.fst hp)
    have hfold : (q :: l).foldl (fun d p => d.insert p.1 p.2) d
        = l.foldl (fun d p => d.insert p.1 p.2) (d.insert q.1 q.2) := rfl
    rw [hfold, ih (d.insert q.1 q.2) hfresh' hnd'.2,
        PyDict.insert_fresh d q.1 q.2 hq]
    simp

theorem PyDict.ofList_entries {α β : Type} [DecidableEq α] (l : List (α × β))
    (h : (l.map Prod.fst).Nodup) : (PyDict.ofList l).entries = l := by
  have hloop := ofList_loop l PyDict.empty
    (by intro p _; simp [PyDict.empty, PyDict.keys]) h
  simpa [PyDict.ofList, PyDict.empty] using hloop

theorem find?_map_swap {α β : Type} [DecidableEq α] [DecidableEq β]
    (l : List (α × β)) :
    ∀ (t : α) (i : β), (l.map Prod.snd).Nodup → (t, i) ∈ l →
    (l.map fun p => (p.2, p.1)).find? (fun p => decide (p.1 = i))
      = some (i, t) := by
  induction l with
  | nil =>
    intro t i _ h
    simp at h
  | cons q l ih =>
    intro t i hnd hmem
    rw [List.map_cons] at hnd
    have hnd' := List.nodup_cons.mp hnd
    rcases List.mem_cons.mp hmem with heq | htail
    · obtain ⟨q1, q2⟩ := q
      obtain ⟨h1, h2⟩ := Prod.mk.injEq .. ▸ heq.symm
      subst h1
      subst h2
      simp
    · have hival : i ∈ l.map Prod.snd := by
        simpa using List.mem_map_of_mem Prod.snd htail
      have hne : q.2 ≠ i := by
        intro hEq
        exact hnd'.1 (hEq ▸ hival)
      have htl := ih t i hnd'.2 htail
      simpa [hne] using htl

theorem expectedToken2idx_values (p : BaseProcessor) (ts : List Token) :
    (expectedToken2idx p ts).entries.map Prod.snd
      = List.range' 0 (ts.length + 4) := by
  have hz : (ts.zip (List.range' 4 ts.length)).map Prod.snd
      = List.range' 4 ts.length :=
    List.map_snd_zip ts (List.range' 4 ts.length) (by simp)
  have happ := List.range'_append 0 4 ts.length 1
  simp only [expectedToken2idx, List.map_append, List.map_cons, List.map_nil, hz]
  simpa using happ

/-- C7: after `_build_token2idx_from_w2v` runs, the processor's vocabulary is
aligned with the built one: `processor.token2idx` equals the constructed
`token2idx`, and `processor.idx2token` is its inverse — whenever `token2idx`
maps token `t` to index `i`, `idx2token` maps `i` back to `t` — provided the
loaded vocabulary contains none of the four reserved tokens. -/
theorem build_processor_vocab_aligned
    (e : WordEmbedding) (w2v : KeyedVectors) (rv : Vec)
    (hres : e.processor.reserved.Nodup)
    (hnd : w2v.index2word.Nodup)
    (hdisj : ∀ t ∈ w2v.index2word, t ∉ e.processor.reserved)
    (hWF : w2v.WF)
    (hrv : rv.length = w2v.vector_size) :
    (buildState e w2v rv).processor.token2idx
        = (buildState e w2v rv).w2v_token2idx ∧
    ∀ t : Token, ∀ i : Nat,
      (buildState e w2v rv).w2v_token2idx.get? t = some i →
      (buildState e w2v rv).processor.idx2token.get? i = some t := by
  have hb := build_ok e w2v rv hres hnd hdisj hWF hrv
  have htok : (buildState e w2v rv).w2v_token2idx
      = expectedToken2idx e.processor w2v.index2word := by
    unfold buildState
    rw [hb]
  have hptok : (buildState e w2v rv).processor.token2idx
      = expectedToken2idx e.processor w2v.index2word := by
    unfold buildState
    rw [hb]
  have hpidx : (buildState e w2v rv).processor.idx2token
      = PyDict.ofList ((expectedToken2idx e.processor w2v.index2word).entries.map
          fun p => (p.2, p.1)) := by
    unfold buildState
    rw [hb]
  refine ⟨by rw [hptok, htok], ?_⟩
  intro t i hget
  rw [htok] at hget
  rw [hpidx]
  have hvals : ((expectedToken2idx e.processor w2v.index2word).entries.map
      Prod.snd).Nodup := by
    rw [expectedToken2idx_values]
    exact List.nodup_range' 0 (w2v.index2word.length + 4)
  have hkeys : (((expectedToken2idx e.processor w2v.index2word).entries.map
      fun p => (p.2, p.1)).map Prod.fst).Nodup := by
    rw [List.map_map]
    exact hvals
  have hof := PyDict.ofList_entries
    ((expectedToken2idx e.processor w2v.index2word).entries.map
      fun p => (p.2, p.1)) hkeys
  unfold PyDict.get? at hget
  cases hfq : (expectedToken2idx e.processor w2v.index2word).entries.find?
      (fun p => decide (p.1 = t)) with
  | none =>
    rw [hfq] at hget
    simp at hget
  | some q =>
    rw [hfq] at hget
    have hq2 : q.2 = i := by
      simpa using hget
    have hq1 : q.1 = t := by
      simpa using List.find?_some hfq
    have hqmem := List.mem_of_find?_eq_some hfq
    have hmemti : (t, i) ∈ (expectedToken2idx e.processor w2v.index2word).entries := by
      have hqti : q = (t, i) := by
        obtain ⟨a, b⟩ := q
        simp only [Prod.mk.injEq]
        exact ⟨hq1, hq2⟩
      exact hqti ▸ hqmem
    have hswap := find?_map_swap
      ((expectedToken2idx e.processor w2v.index2word).entries) t i hvals hmemti
    unfold PyDict.get?
    rw [hof, hswap]
    rfl

/-- Witness for C7: the processor maps are aligned on the concrete run and
index 4 maps back to the first loaded word. -/
theorem build_processor_vocab_aligned_witness :
    (buildState embEx w2vEx rvEx).processor.token2idx
        = (buildState embEx w2vEx rvEx).w2v_token2idx ∧
    (buildState embEx w2vEx rvEx).processor.idx2token.get? 4 = some "hello" := by
  have h := build_processor_vocab_aligned embEx w2vEx rvEx
    (by decide) (by decide) (by decide) (by decide) (by decide)
  exact ⟨h.1, h.2 "hello" 4 (by decide)⟩

/-! ## Size and slice safety -/

/-- A loaded table whose vocabulary collides with two reserved tokens: both
are re-indexed in place, the dict stays at 4 entries, and the two loaded
vectors cannot broadcast into the then-empty slice `vector_matrix[4:]`. -/
def w2vBad : KeyedVectors :=
  { index2word := ["<PAD>", "<UNK>"], vector_size := 1, vectors := [[5], [7]] }

/-- A loaded table colliding with the pad token only: numpy broadcasts its
single row into the empty slice, so that run completes silently. -/
def w2vPadOnly : KeyedVectors :=
  { index2word := ["<PAD>"], vector_size := 1, vectors := [[5]] }

/-- C10: under the precondition that the loaded vocabulary avoids the four
reserved tokens, the built `token2idx` has exactly `4 + n` entries whose
values are pairwise-distinct contiguous indices `0 … n+3`, so the slice
assignment `vector_matrix[4:] = w2v.vectors` is shape-correct and the build
cannot fail; without the precondition the indices collide and the
assignment's shapes can mismatch: with two colliding reserved tokens both are
re-indexed to 4, the dict keeps 4 entries, and the two loaded rows cannot
broadcast into the empty slice, raising. (A single colliding word still
collides but broadcasts silently — last conjunct.) -/
theorem build_token2idx_size_and_slice_safety
    (e : WordEmbedding) (w2v : KeyedVectors) (rv : Vec)
    (hres : e.processor.reserved.Nodup)
    (hnd : w2v.index2word.Nodup)
    (hdisj : ∀ t ∈ w2v.index2word, t ∉ e.processor.reserved)
    (hWF : w2v.WF)
    (hrv : rv.length = w2v.vector_size) :
    ((buildState e w2v rv).w2v_token2idx.size = 4 + w2v.index2word.length ∧
     (buildState e w2v rv).w2v_token2idx.entries.map Prod.snd
        = List.range' 0 (w2v.index2word.length + 4) ∧
     (build_token2idx_from_w2v e (Except.ok w2v) rv).2 = none) ∧
    ((addTokens (reservedDict procEx) w2vBad.index2word).get? "<PAD>" = some 4 ∧
     (addTokens (reservedDict procEx) w2vBad.index2word).get? "<UNK>" = some 4 ∧
     (addTokens (reservedDict procEx) w2vBad.index2word).size = 4 ∧
     (build_token2idx_from_w2v embEx (Except.ok w2vBad) rvEx).2
        = some "ValueError" ∧
     (build_token2idx_from_w2v embEx (Except.ok w2vPadOnly) rvEx).2 = none) := by
  have hb := build_ok e w2v rv hres hnd hdisj hWF hrv
  have htok : (buildState e w2v rv).w2v_token2idx
      = expectedToken2idx e.processor w2v.index2word := by
    unfold buildState
    rw [hb]
  refine ⟨⟨?_, ?_, ?_⟩, by decide, by decide, by decide, by decide, by decide⟩
  · rw [htok, expectedToken2idx_size]
  · rw [htok, expectedToken2idx_values]
  · rw [hb]

/-- Witness for C10 on the concrete two-word table: six entries, indices
0 through 5, and no exception. -/
theorem build_token2idx_size_and_slice_safety_witness :
    (buildState embEx w2vEx rvEx).w2v_token2idx.size = 6 ∧
    (buildState embEx w2vEx rvEx).w2v_token2idx.entries.map Prod.snd
        = [0, 1, 2, 3, 4, 5] ∧
    (build_token2idx_from_w2v embEx (Except.ok w2vEx) rvEx).2 = none := by
  have h := build_token2idx_size_and_slice_safety embEx w2vEx rvEx
    (by decide) (by decide) (by decide) (by decide) (by decide)
  exact ⟨h.1.1, h.1.2.1, h.1.2.2⟩
